import Mathlib

/-!
Shallow embedding of `app/lib/data.ts` from the `nextjs-dashboard` repository.

The module is a set of read-only data-access functions over three tables
(`revenue`, `invoices`, `customers`) reached through a parameterized-query
client.  We model the store as a `Db` value (the three tables as lists, in
storage order) and each `fetch*` function as a Lean function on
`Except String Db`: the `.error e` case models the underlying client throwing
a storage error `e`, and each function's `try/catch` block is modelled by
mapping that case to the function's fixed replacement message.

SQL constructs used by the queries are embedded at the relational level:
`JOIN` as a flatMap/filter product, `ORDER BY` as a stable sort,
`LIMIT`/`OFFSET` as `take`/`drop`, `ILIKE` as a pattern matcher over
case-folded character lists with the `%`/`_` wildcard and `\` escape
semantics of SQL `LIKE`, aggregates (`COUNT`, `SUM ... CASE`) as list
length/sums, with SQL's `SUM`-over-zero-rows-is-NULL reflected as `Option`.
-/

namespace InvoiceData

/-- Equality of `Except` results is decidable (used to evaluate the fetch
functions at concrete inputs). -/
instance {ε α : Type} [DecidableEq ε] [DecidableEq α] :
    DecidableEq (Except ε α) := fun x y =>
  match x, y with
  | .error e, .error f =>
    if h : e = f then isTrue (h ▸ rfl)
    else isFalse fun hh => h (Except.error.inj hh)
  | .error _, .ok _ => isFalse Except.noConfusion
  | .ok _, .error _ => isFalse Except.noConfusion
  | .ok a, .ok b =>
    if h : a = b then isTrue (h ▸ rfl)
    else isFalse fun hh => h (Except.ok.inj hh)

/-- A row of the `customers` table: `customers(id, name, email, image_url)`.
`image_url` is nullable. -/
structure Customer where
  id : String
  name : String
  email : String
  image_url : Option String
deriving DecidableEq, Repr

/-- The closed status enumeration of an invoice. -/
inductive Status where
  | paid
  | pending
  | canceled
deriving DecidableEq, Repr

/-- The text stored in the `status` column (`invoices.status ILIKE ...`
and `CASE WHEN status = 'paid' ...` compare against these strings). -/
def Status.text : Status → String
  | .paid => "paid"
  | .pending => "pending"
  | .canceled => "canceled"

/-- A row of the `invoices` table: `invoices(id, customer_id, amount, date, status)`.
`amount` is an integer in minor currency units (cents); `date` is kept in its
text form (ISO dates compare chronologically as strings, matching `ORDER BY
invoices.date` on the store, and `invoices.date::text` is the row's own text). -/
structure Invoice where
  id : String
  customer_id : String
  amount : Int
  date : String
  status : Status
deriving DecidableEq, Repr

/-- A row of the `revenue` table: `revenue(month, revenue)`. -/
structure Revenue where
  month : String
  revenue : Int
deriving DecidableEq, Repr

/-- The relational store the queries run against: the three tables, each in
storage order. -/
structure Db where
  revenue : List Revenue
  invoices : List Invoice
  customers : List Customer

/-- Modelled from the spec: `formatCurrency` from `app/lib/utils` is not part
of the source under review ("Currency formatting helper (external
collaborator): converts a minor-unit integer amount into a locale-formatted
display string; exact formatting rules (locale, symbol, decimal places) are
out of scope here.").  We model it as an explicit minor-to-major conversion
rendered to a string; the claims only use which integer it is applied to. -/
def formatCurrency (amount : Int) : String :=
  "$" ++ toString ((amount : ℚ) / 100)

/-- `const ITEMS_PER_PAGE = 6`. -/
def ITEMS_PER_PAGE : Nat := 6

/-! ### SQL `LIKE` / `ILIKE` pattern matching

`field ILIKE pattern` in Postgres case-folds both sides and then matches the
pattern, where `%` matches any sequence of characters, `_` matches any single
character, and `\` escapes the next pattern character.  `likeMatch p s`
decides whether pattern `p` matches the whole string `s` (as char lists):
a `%` matches iff the rest of the pattern matches some suffix of the string.
(A pattern ending in a bare `\` is rejected by the store; the patterns this
module builds always end in `%`, so that case is unreachable here.) -/

def likeMatch : List Char → List Char → Bool
  | [], s => s.isEmpty
  | '%' :: ps, s => s.tails.any fun t => likeMatch ps t
  | '_' :: ps, s =>
    match s with
    | [] => false
    | _ :: t => likeMatch ps t
  | '\\' :: q :: ps, s =>
    match s with
    | [] => false
    | c :: t => c == q && likeMatch ps t
  | ['\\'], _ => false
  | p :: ps, s =>
    match s with
    | [] => false
    | c :: t => c == p && likeMatch ps t

/-- Case-fold a string to a character list, as `ILIKE` case-folds both the
data and the pattern. -/
def lowerL (s : String) : List Char :=
  s.toList.map Char.toLower

/-- `s ILIKE pat`: case-insensitive SQL pattern match. -/
def ilike (s pat : String) : Bool :=
  likeMatch (lowerL pat) (lowerL s)

/-- `const like = '%' + query + '%'` — the pattern every filtered query binds. -/
def buildLike (query : String) : String :=
  "%" ++ query ++ "%"

/-- The spec's reading of the `%query%` filter ("substring filter is
case-insensitive, unanchored"): the case-folded text of `q` occurs as a
contiguous segment of the case-folded text of `s`. -/
def ContainsCI (q s : String) : Prop :=
  lowerL q <:+: lowerL s

instance (q s : String) : Decidable (ContainsCI q s) :=
  List.decidableInfix (lowerL q) (lowerL s)

/-- A character list free of the SQL `LIKE` metacharacters `%`, `_` and the
escape character `\`. -/
def LikeLiteral (l : List Char) : Prop :=
  ∀ c ∈ l, c ≠ '%' ∧ c ≠ '_' ∧ c ≠ '\\'

/-- A search string free of the SQL `LIKE` metacharacters `%`, `_` and the
escape character `\`: for such queries (only), `ILIKE '%' + q + '%'` is the
case-insensitive substring test. -/
def cleanQuery (q : String) : Prop :=
  LikeLiteral q.toList

instance (l : List Char) : Decidable (LikeLiteral l) :=
  inferInstanceAs (Decidable (∀ c ∈ l, c ≠ '%' ∧ c ≠ '_' ∧ c ≠ '\\'))

instance (q : String) : Decidable (cleanQuery q) :=
  inferInstanceAs (Decidable (LikeLiteral q.toList))

/-! ### Joins and shared query fragments -/

/-- One row of `FROM invoices JOIN customers ON invoices.customer_id = customers.id`. -/
structure JoinedRow where
  inv : Invoice
  cust : Customer
deriving DecidableEq, Repr

/-- The inner join of `invoices` with `customers` on
`invoices.customer_id = customers.id`, in storage nesting order. -/
def joinRows (db : Db) : List JoinedRow :=
  db.invoices.flatMap fun inv =>
    (db.customers.filter fun c => c.id == inv.customer_id).map fun c =>
      { inv := inv, cust := c }

/-- The shared `WHERE` clause of `fetchFilteredInvoices` and
`fetchInvoicesPages` (the source repeats it verbatim in both):

    customers.name ILIKE ${like} OR
    customers.email ILIKE ${like} OR
    invoices.amount::text ILIKE ${like} OR
    invoices.date::text ILIKE ${like} OR
    invoices.status ILIKE ${like}

with `like = '%' + query + '%'`. -/
def invoiceMatch (query : String) (j : JoinedRow) : Bool :=
  ilike j.cust.name (buildLike query) ||
  ilike j.cust.email (buildLike query) ||
  ilike (toString j.inv.amount) (buildLike query) ||
  ilike j.inv.date (buildLike query) ||
  ilike j.inv.status.text (buildLike query)

/-- `ORDER BY invoices.date DESC` ordering relation (dates in text form, see
`Invoice.date`). -/
def dateDesc (a b : JoinedRow) : Prop :=
  b.inv.date ≤ a.inv.date

instance : DecidableRel dateDesc := fun a b =>
  inferInstanceAs (Decidable (b.inv.date ≤ a.inv.date))

instance : IsTotal JoinedRow dateDesc :=
  ⟨fun a b => le_total b.inv.date a.inv.date⟩

instance : IsTrans JoinedRow dateDesc :=
  ⟨fun _ _ _ hab hbc => le_trans hbc hab⟩

/-- `ORDER BY ... DESC` as executed: a sort of the rows by `dateDesc`
(stable insertion sort; `ORDER BY` promises any comparator-consistent
order). -/
def sortByDateDesc (l : List JoinedRow) : List JoinedRow :=
  l.insertionSort dateDesc

/-- The number of joined invoice rows matching the filter: the value of the
`SELECT COUNT(*) ... WHERE ...` query of `fetchInvoicesPages`. -/
def matchCount (db : Db) (query : String) : Nat :=
  ((joinRows db).filter (invoiceMatch query)).length

/-! ### `SUM(CASE WHEN status = ... THEN amount ELSE 0 END)` aggregates -/

/-- `SUM(CASE WHEN status = 'paid' THEN amount ELSE 0 END)` over a list of
invoice rows (the non-NULL case: at least one row present). -/
def sumPaid (invs : List Invoice) : Int :=
  (invs.map fun i => if i.status = .paid then i.amount else 0).sum

/-- `SUM(CASE WHEN status = 'pending' THEN amount ELSE 0 END)` over a list of
invoice rows (the non-NULL case: at least one row present). -/
def sumPending (invs : List Invoice) : Int :=
  (invs.map fun i => if i.status = .pending then i.amount else 0).sum

/-- SQL `SUM` over zero rows is NULL, not 0: the status-sum query of
`fetchCardData` returns one row whose `paid`/`pending` fields are NULL when
the `invoices` table is empty.  `none` models NULL. -/
def sumAgg (f : List Invoice → Int) (invs : List Invoice) : Option Int :=
  if invs.isEmpty then none else some (f invs)

/-! ### The fetch functions

Each `fetch*` below is the translation of the function of the same name in
`app/lib/data.ts`.  The `Except String Db` argument is the storage boundary:
`.error e` is the underlying client throwing `e`, which each function's
`catch` block replaces with its fixed message. -/

/-- `fetchRevenue()`: `SELECT * FROM revenue`. -/
def fetchRevenue (store : Except String Db) : Except String (List Revenue) :=
  match store with
  | .error _ => .error "Failed to fetch revenue data."
  | .ok db => .ok db.revenue

/-- Output row of `fetchLatestInvoices` (`LatestInvoiceRaw` with the amount
replaced by `formatCurrency(amount)`, per the `rows.map` in the source). -/
structure LatestInvoice where
  id : String
  name : String
  email : String
  image_url : Option String
  amount : String
deriving DecidableEq, Repr

/-- The row shaping of `fetchLatestInvoices`: project the selected columns
and format the amount (`{ ...invoice, amount: formatCurrency(invoice.amount) }`). -/
def latestShape (j : JoinedRow) : LatestInvoice :=
  { id := j.inv.id
    name := j.cust.name
    email := j.cust.email
    image_url := j.cust.image_url
    amount := formatCurrency j.inv.amount }

/-- `fetchLatestInvoices()`: join, `ORDER BY invoices.date DESC LIMIT 5`,
then format each amount. -/
def fetchLatestInvoices (store : Except String Db) :
    Except String (List LatestInvoice) :=
  match store with
  | .error _ => .error "Failed to fetch the latest invoices."
  | .ok db =>
    .ok (((sortByDateDesc (joinRows db)).take 5).map latestShape)

/-- The record returned by `fetchCardData`. -/
structure CardData where
  numberOfCustomers : Nat
  numberOfInvoices : Nat
  totalPaidInvoices : String
  totalPendingInvoices : String
deriving DecidableEq, Repr

/-- `fetchCardData()`: three independent aggregate queries
(`COUNT(*) FROM invoices`, `COUNT(*) FROM customers`, and the status-sum
query), awaited jointly; the NULL-able sums are normalized with `?? 0`
before formatting.  (`COUNT(*)` always yields one row, so its
`rows[0]?.count ?? '0'` coalescing is the identity and the count is the
table's row count.) -/
def fetchCardData (store : Except String Db) : Except String CardData :=
  match store with
  | .error _ => .error "Failed to fetch card data."
  | .ok db =>
    .ok
      { numberOfCustomers := db.customers.length
        numberOfInvoices := db.invoices.length
        totalPaidInvoices :=
          formatCurrency ((sumAgg sumPaid db.invoices).getD 0)
        totalPendingInvoices :=
          formatCurrency ((sumAgg sumPending db.invoices).getD 0) }

/-- Output row of `fetchFilteredInvoices` (`InvoicesTable`): invoice columns
plus the joined customer's display columns, amount left as the stored
integer. -/
structure InvoicesTableRow where
  id : String
  amount : Int
  date : String
  status : Status
  name : String
  email : String
  image_url : Option String
deriving DecidableEq, Repr

/-- The `SELECT` list of `fetchFilteredInvoices`. -/
def invoicesTableShape (j : JoinedRow) : InvoicesTableRow :=
  { id := j.inv.id
    amount := j.inv.amount
    date := j.inv.date
    status := j.inv.status
    name := j.cust.name
    email := j.cust.email
    image_url := j.cust.image_url }

/-- The filtered, date-descending-ordered join that both paginated invoice
queries range over. -/
def filteredSorted (db : Db) (query : String) : List JoinedRow :=
  sortByDateDesc ((joinRows db).filter (invoiceMatch query))

/-- `fetchFilteredInvoices(query, currentPage)`:
`offset = (currentPage - 1) * ITEMS_PER_PAGE`, then the filtered join ordered
by date descending with `LIMIT ITEMS_PER_PAGE OFFSET offset`.  A negative
offset (from `currentPage ≤ 0`) makes the store reject the query; the `catch`
block then yields the function's fixed message. -/
def fetchFilteredInvoices (store : Except String Db) (query : String)
    (currentPage : Int) : Except String (List InvoicesTableRow) :=
  match store with
  | .error _ => .error "Failed to fetch invoices."
  | .ok db =>
    let offset : Int := (currentPage - 1) * (ITEMS_PER_PAGE : Int)
    if offset < 0 then .error "Failed to fetch invoices."
    else
      .ok ((((filteredSorted db query).drop offset.toNat).take
        ITEMS_PER_PAGE).map invoicesTableShape)

/-- `fetchInvoicesPages(query)`: `COUNT(*)` over the same filtered join, then
`Math.ceil(total / ITEMS_PER_PAGE)` (on a natural-number count, JS
`Math.ceil(total / 6)` is `(total + 5) / 6` in integer division). -/
def fetchInvoicesPages (store : Except String Db) (query : String) :
    Except String Nat :=
  match store with
  | .error _ => .error "Failed to fetch total number of invoices."
  | .ok db =>
    .ok ((matchCount db query + (ITEMS_PER_PAGE - 1)) / ITEMS_PER_PAGE)

/-- The record returned by `fetchInvoiceById` when the row exists
(`InvoiceForm`, after the `amount: inv.amount / 100` conversion; JS `/` is
exact rational division, e.g. `150 / 100 = 1.5`). -/
structure InvoiceForm where
  id : String
  customer_id : String
  amount : ℚ
  status : Status
deriving DecidableEq

/-- `fetchInvoiceById(id)`: `WHERE invoices.id = ${id} LIMIT 1`; `undefined`
(here `none`) when no row matches, otherwise the row with its amount divided
by 100. -/
def fetchInvoiceById (store : Except String Db) (id : String) :
    Except String (Option InvoiceForm) :=
  match store with
  | .error _ => .error "Failed to fetch invoice."
  | .ok db =>
    match (db.invoices.filter fun i => i.id == id).head? with
    | none => .ok none
    | some inv =>
      .ok (some
        { id := inv.id
          customer_id := inv.customer_id
          amount := (inv.amount : ℚ) / 100
          status := inv.status })

/-- Output row of `fetchCustomers` (`CustomerField`). -/
structure CustomerField where
  id : String
  name : String
deriving DecidableEq, Repr

/-- `ORDER BY customers.name ASC` ordering relation. -/
def nameAsc (a b : Customer) : Prop :=
  a.name ≤ b.name

instance : DecidableRel nameAsc := fun a b =>
  inferInstanceAs (Decidable (a.name ≤ b.name))

instance : IsTotal Customer nameAsc :=
  ⟨fun a b => le_total a.name b.name⟩

instance : IsTrans Customer nameAsc :=
  ⟨fun _ _ _ hab hbc => le_trans hab hbc⟩

/-- `ORDER BY customers.name ASC` as executed (stable insertion sort). -/
def sortByNameAsc (l : List Customer) : List Customer :=
  l.insertionSort nameAsc

/-- `fetchCustomers()`: `SELECT id, name FROM customers ORDER BY name ASC`. -/
def fetchCustomers (store : Except String Db) :
    Except String (List CustomerField) :=
  match store with
  | .error _ => .error "Failed to fetch all customers."
  | .ok db =>
    .ok ((sortByNameAsc db.customers).map fun c =>
      { id := c.id, name := c.name })

/-- Output row of `fetchFilteredCustomers` (`CustomersTableType` after the
`rows.map` formatting step: the two sums become display strings). -/
structure CustomerSummaryRow where
  id : String
  name : String
  email : String
  image_url : Option String
  total_invoices : Nat
  total_pending : String
  total_paid : String
deriving DecidableEq, Repr

/-- The `WHERE` clause of `fetchFilteredCustomers`:
`customers.name ILIKE ${like} OR customers.email ILIKE ${like}`. -/
def customerMatch (query : String) (c : Customer) : Bool :=
  ilike c.name (buildLike query) || ilike c.email (buildLike query)

/-- The per-customer group of `LEFT JOIN invoices ON customers.id =
invoices.customer_id` + `GROUP BY customers.*`: the customer's invoices. -/
def customerInvoices (db : Db) (c : Customer) : List Invoice :=
  db.invoices.filter fun i => i.customer_id == c.id

/-- One aggregated row of `fetchFilteredCustomers`.  `COUNT(invoices.id)`
counts the non-NULL joined ids (0 for a customer with no invoices); the
conditional `SUM`s run over the group's rows, where a customer with no
invoices contributes one all-NULL-extended row whose `CASE` value is the
`ELSE 0` branch, so the sums are 0 (not NULL).  The source's
`Number.isFinite(x) ? formatCurrency(x) : formatCurrency(0)` guard therefore
formats the integer sum either way. -/
def customerSummaryShape (db : Db) (c : Customer) : CustomerSummaryRow :=
  { id := c.id
    name := c.name
    email := c.email
    image_url := c.image_url
    total_invoices := (customerInvoices db c).length
    total_pending := formatCurrency (sumPending (customerInvoices db c))
    total_paid := formatCurrency (sumPaid (customerInvoices db c)) }

/-- `fetchFilteredCustomers(query)`: name/email filter, grouped aggregation
over each customer's invoices, `ORDER BY customers.name ASC`, amounts
formatted. -/
def fetchFilteredCustomers (store : Except String Db) (query : String) :
    Except String (List CustomerSummaryRow) :=
  match store with
  | .error _ => .error "Failed to fetch customer table."
  | .ok db =>
    .ok ((sortByNameAsc (db.customers.filter (customerMatch query))).map
      (customerSummaryShape db))

/-! ### Concrete sample stores

`dbA` is a small store used to evaluate the claims at concrete inputs:
three customers (`c3` has no invoices) and seven invoices, all belonging
to existing customers.  `dbU` is a one-row store whose field texts contain
no `_` character. -/

def custA : Customer := ⟨"c1", "Alice", "alice@example.com", none⟩

def custB : Customer := ⟨"c2", "Bob", "bob@example.com", some "bob.png"⟩

def custZ : Customer := ⟨"c3", "Zoe", "zoe@example.com", none⟩

def dbA : Db :=
  { revenue := [⟨"Jan", 900⟩]
    invoices :=
      [⟨"i1", "c1", 1500, "2024-01-03", .paid⟩,
       ⟨"i2", "c1", 250, "2024-01-07", .pending⟩,
       ⟨"i3", "c2", 4400, "2024-01-05", .paid⟩,
       ⟨"i4", "c2", 30, "2024-01-02", .canceled⟩,
       ⟨"i5", "c1", 78, "2024-01-09", .pending⟩,
       ⟨"i6", "c2", 905, "2024-01-01", .paid⟩,
       ⟨"i7", "c1", 66, "2024-01-08", .pending⟩]
    customers := [custA, custB, custZ] }

def dbU : Db :=
  { revenue := []
    invoices := [⟨"i1", "c1", 5, "2024-01-05", .paid⟩]
    customers := [⟨"c1", "alice", "alice@example.com", none⟩] }

/-! ## Lemmas about the `LIKE` matcher -/

theorem likeMatch_nil (s : List Char) : likeMatch [] s = true ↔ s = [] := by
  simp [likeMatch, List.isEmpty_iff]

theorem likeMatch_pct (ps s : List Char) :
    likeMatch ('%' :: ps) s = true ↔ ∃ t, t <:+ s ∧ likeMatch ps t = true := by
  simp [likeMatch, List.any_eq_true, List.mem_tails]

theorem likeLiteral_cons {c : Char} {p : List Char} (hp : LikeLiteral (c :: p)) :
    (c ≠ '%' ∧ c ≠ '_' ∧ c ≠ '\\') ∧ LikeLiteral p :=
  ⟨hp c (List.mem_cons_self c p), fun d hd => hp d (List.mem_cons_of_mem c hd)⟩

theorem likeMatch_cons_nil {c : Char} (ps : List Char)
    (hc1 : c ≠ '%') (hc2 : c ≠ '_') (hc3 : c ≠ '\\') :
    likeMatch (c :: ps) [] = false := by
  simp [likeMatch, hc1, hc2, hc3]

theorem likeMatch_cons_cons {c d : Char} (ps t : List Char)
    (hc1 : c ≠ '%') (hc2 : c ≠ '_') (hc3 : c ≠ '\\') :
    likeMatch (c :: ps) (d :: t) = (d == c && likeMatch ps t) := by
  simp [likeMatch, hc1, hc2, hc3]

theorem likeMatch_literal : ∀ (p s : List Char), LikeLiteral p →
    (likeMatch p s = true ↔ s = p)
  | [], s, _ => likeMatch_nil s
  | c :: p, s, hp => by
    obtain ⟨⟨hc1, hc2, hc3⟩, hp'⟩ := likeLiteral_cons hp
    cases s with
    | nil =>
      rw [likeMatch_cons_nil p hc1 hc2 hc3]
      simp
    | cons d t =>
      rw [likeMatch_cons_cons p t hc1 hc2 hc3, Bool.and_eq_true, beq_iff_eq,
        likeMatch_literal p t hp', List.cons.injEq]

theorem likeMatch_literal_pct : ∀ (p s : List Char), LikeLiteral p →
    (likeMatch (p ++ ['%']) s = true ↔ p <+: s)
  | [], s, _ => by
    rw [List.nil_append, likeMatch_pct]
    constructor
    · intro _
      exact ⟨s, rfl⟩
    · intro _
      exact ⟨[], ⟨s, by simp⟩, rfl⟩
  | c :: p, s, hp => by
    obtain ⟨⟨hc1, hc2, hc3⟩, hp'⟩ := likeLiteral_cons hp
    cases s with
    | nil =>
      rw [List.cons_append, likeMatch_cons_nil _ hc1 hc2 hc3]
      simp
    | cons d t =>
      rw [List.cons_append, likeMatch_cons_cons _ _ hc1 hc2 hc3,
        Bool.and_eq_true, beq_iff_eq, likeMatch_literal_pct p t hp',
        List.cons_prefix_cons, eq_comm]

theorem likeMatch_sub (q s : List Char) (hq : LikeLiteral q) :
    likeMatch ('%' :: (q ++ ['%'])) s = true ↔ q <:+: s := by
  rw [likeMatch_pct, List.infix_iff_prefix_suffix]
  constructor
  · rintro ⟨t, hts, hm⟩
    exact ⟨t, (likeMatch_literal_pct q t hq).mp hm, hts⟩
  · rintro ⟨t, hqt, hts⟩
    exact ⟨t, hts, (likeMatch_literal_pct q t hq).mpr hqt⟩

theorem char_toNat_ofNat {n : Nat} (h : n.isValidChar) :
    (Char.ofNat n).toNat = n := by
  rw [Char.ofNat, dif_pos h]
  rfl

theorem toLower_low {c m : Char} (hm : m.toNat < 97) (h : c.toLower = m) :
    c = m := by
  have h' : (if c.toNat ≥ 65 ∧ c.toNat ≤ 90 then Char.ofNat (c.toNat + 32)
      else c) = m := h
  by_cases hr : c.toNat ≥ 65 ∧ c.toNat ≤ 90
  · exfalso
    rw [if_pos hr] at h'
    have hv : (c.toNat + 32).isValidChar := Or.inl (by omega)
    have h2 := congrArg Char.toNat h'
    rw [char_toNat_ofNat hv] at h2
    omega
  · rwa [if_neg hr] at h'

theorem lowerL_clean {q : String} (hq : cleanQuery q) : LikeLiteral (lowerL q) := by
  intro c hc
  simp only [lowerL, List.mem_map] at hc
  obtain ⟨d, hd, rfl⟩ := hc
  obtain ⟨h1, h2, h3⟩ := hq d hd
  refine ⟨fun h => h1 ?_, fun h => h2 ?_, fun h => h3 ?_⟩
  · exact toLower_low (by decide) h
  · exact toLower_low (by decide) h
  · exact toLower_low (by decide) h

theorem lowerL_buildLike (q : String) :
    lowerL (buildLike q) = '%' :: (lowerL q ++ ['%']) := by
  show (("%" ++ q ++ "%").data.map Char.toLower) = _
  rw [String.data_append, String.data_append]
  show ((['%'] ++ q.data ++ ['%']).map Char.toLower) = _
  have h : Char.toLower '%' = '%' := by decide
  simp [List.map_append, h, lowerL, String.toList]

theorem ilike_buildLike_iff (q : String) (hq : cleanQuery q) (s : String) :
    ilike s (buildLike q) = true ↔ ContainsCI q s := by
  rw [ilike, lowerL_buildLike, likeMatch_sub _ _ (lowerL_clean hq)]
  exact Iff.rfl

/-- The empty search string's pattern `%%` matches every field text. -/
theorem ilike_empty (s : String) : ilike s (buildLike "") = true := by
  rw [ilike, lowerL_buildLike]
  have hlit : LikeLiteral (lowerL "") := by intro c hc; simp [lowerL] at hc
  rw [show lowerL "" = [] from rfl, likeMatch_sub _ _ (by intro c hc; cases hc)]
  exact ⟨[], lowerL s, rfl⟩

/-! ## Lemmas about the join -/

theorem mem_joinRows {db : Db} {j : JoinedRow} (h : j ∈ joinRows db) :
    j.inv ∈ db.invoices ∧ j.cust ∈ db.customers ∧
      j.cust.id = j.inv.customer_id := by
  simp only [joinRows, List.mem_flatMap, List.mem_map, List.mem_filter] at h
  obtain ⟨inv, hinv, c, ⟨hc, hcid⟩, rfl⟩ := h
  exact ⟨hinv, hc, by simpa using hcid⟩

/-- With unique customer ids and an existing referenced customer, the inner
join pairs each invoice with exactly one customer row. -/
theorem filter_id_singleton {cs : List Customer} {cid : String}
    (hnd : (cs.map Customer.id).Nodup) (hex : ∃ c ∈ cs, c.id = cid) :
    (cs.filter fun c => c.id == cid).length = 1 := by
  induction cs with
  | nil => simp at hex
  | cons c cs ih =>
    rw [List.map_cons, List.nodup_cons] at hnd
    obtain ⟨hni, hnd'⟩ := hnd
    by_cases hc : c.id = cid
    · rw [List.filter_cons_of_pos (by simpa using hc)]
      have hnone : cs.filter (fun c => c.id == cid) = [] := by
        rw [List.filter_eq_nil_iff]
        intro d hd hdc
        exact hni (hc ▸ (by simpa using hdc : d.id = cid) ▸
          List.mem_map_of_mem Customer.id hd)
      rw [hnone]
      rfl
    · rw [List.filter_cons_of_neg (by simpa using hc)]
      apply ih hnd'
      obtain ⟨d, hd, hdc⟩ := hex
      rcases List.mem_cons.mp hd with rfl | hd'
      · exact absurd hdc hc
      · exact ⟨d, hd', hdc⟩

theorem joinList_length (cs : List Customer) : ∀ invs : List Invoice,
    (∀ inv ∈ invs, ∃ c ∈ cs, c.id = inv.customer_id) →
    (cs.map Customer.id).Nodup →
    (invs.flatMap fun inv =>
      (cs.filter fun c => c.id == inv.customer_id).map
        fun c => JoinedRow.mk inv c).length = invs.length
  | [], _, _ => rfl
  | inv :: invs, hex, hnd => by
    rw [List.flatMap_cons, List.length_append, List.length_map,
      filter_id_singleton hnd (hex inv (List.mem_cons_self inv invs)),
      joinList_length cs invs
        (fun i hi => hex i (List.mem_cons_of_mem inv hi)) hnd,
      List.length_cons]
    omega

/-- Under the spec's referential-integrity and key-uniqueness invariants,
the join has exactly one row per invoice row. -/
theorem joinRows_length (db : Db)
    (hex : ∀ inv ∈ db.invoices, ∃ c ∈ db.customers, c.id = inv.customer_id)
    (hnd : (db.customers.map Customer.id).Nodup) :
    (joinRows db).length = db.invoices.length :=
  joinList_length db.customers db.invoices hex hnd

/-- Every joined row matches the empty query. -/
theorem invoiceMatch_empty (j : JoinedRow) : invoiceMatch "" j = true := by
  rw [invoiceMatch, ilike_empty]
  rfl

/-- The page formula of the source, `(total + 5) / 6` on naturals, is the
exact rational ceiling `⌈total / 6⌉` that `Math.ceil(total / 6)` computes. -/
theorem pages_eq_ceil (m : Nat) :
    (((m + 5) / 6 : Nat) : ℤ) = ⌈(m : ℚ) / 6⌉ := by
  have h6 : (0 : ℚ) < 6 := by norm_num
  rw [eq_comm, Int.ceil_eq_iff]
  constructor
  · rw [lt_div_iff₀ h6]
    have hZ : ((((m + 5) / 6 : Nat) : ℤ) - 1) * 6 < (m : ℤ) := by omega
    exact_mod_cast hZ
  · rw [div_le_iff₀ h6]
    have hZ : (m : ℤ) ≤ (((m + 5) / 6 : Nat) : ℤ) * 6 := by omega
    exact_mod_cast hZ

/-! ## The claims -/

/-- C1: for every query string, `fetchInvoicesPages(query)` returns
`ceil(matchCount(query) / 6)`, where `matchCount(query)` is the number of
invoice rows (joined with their customer) matching the substring filter;
in particular `matchCount("")` equals the total invoice row count.  (The
"in particular" part holds under the spec's data-model invariants:
referential integrity of `customer_id` and uniqueness of customer ids.) -/
theorem claim1_pages_ceil (db : Db) (q : String)
    (hex : ∀ inv ∈ db.invoices, ∃ c ∈ db.customers, c.id = inv.customer_id)
    (hnd : (db.customers.map Customer.id).Nodup) :
    (∃ n : Nat, fetchInvoicesPages (.ok db) q = .ok n ∧
      (n : ℤ) = ⌈(matchCount db q : ℚ) / 6⌉) ∧
    matchCount db "" = db.invoices.length := by
  constructor
  · exact ⟨(matchCount db q + 5) / 6, rfl, pages_eq_ceil _⟩
  · rw [matchCount, List.filter_eq_self.mpr fun j _ => invoiceMatch_empty j]
    exact joinRows_length db hex hnd

/-- C1 witness: the hypotheses and conclusion evaluated on `dbA`. -/
theorem claim1_pages_ceil_witness :
    (∀ inv ∈ dbA.invoices, ∃ c ∈ dbA.customers, c.id = inv.customer_id) ∧
    (dbA.customers.map Customer.id).Nodup ∧
    ((∃ n : Nat, fetchInvoicesPages (.ok dbA) "" = .ok n ∧
        (n : ℤ) = ⌈(matchCount dbA "" : ℚ) / 6⌉) ∧
      matchCount dbA "" = dbA.invoices.length) :=
  ⟨by decide, by decide, claim1_pages_ceil dbA "" (by decide) (by decide)⟩

/-- C2: for every query string and every page number `page ≥ 1`,
`fetchFilteredInvoices(query, page)` returns at most 6 rows, sliced from the
filtered date-descending row list with `offset = (page − 1) × 6`. -/
theorem claim2_page_slice (db : Db) (q : String) (page : ℤ) (hp : 1 ≤ page) :
    ∃ rows, fetchFilteredInvoices (.ok db) q page = .ok rows ∧
      rows.length ≤ 6 ∧
      rows = (((filteredSorted db q).drop ((page - 1) * 6).toNat).take 6).map
        invoicesTableShape := by
  have h0 : (0 : ℤ) ≤ (page - 1) * (ITEMS_PER_PAGE : ℤ) :=
    mul_nonneg (by omega) (by norm_num [ITEMS_PER_PAGE])
  have hoff : ¬ (page - 1) * (ITEMS_PER_PAGE : ℤ) < 0 := not_lt.mpr h0
  refine ⟨_, ?_, ?_, rfl⟩
  · simp only [fetchFilteredInvoices]
    rw [if_neg hoff]
    rfl
  · rw [List.length_map, List.length_take]
    exact min_le_left _ _

/-- C2 witness: page 1 of `dbA` with the empty query. -/
theorem claim2_page_slice_witness :
    (1 : ℤ) ≤ 1 ∧
    ∃ rows, fetchFilteredInvoices (.ok dbA) "" 1 = .ok rows ∧
      rows.length ≤ 6 ∧
      rows = (((filteredSorted dbA "").drop (((1 : ℤ) - 1) * 6).toNat).take
        6).map invoicesTableShape :=
  ⟨by decide, claim2_page_slice dbA "" 1 (by decide)⟩

/-- C3: for every fetch operation and every underlying storage failure, the
operation raises a fresh error carrying only that operation's fixed
user-facing message; the raw storage-layer error detail `e` is never part of
the error raised to the caller (each result is the same fixed constant for
every `e`). -/
theorem claim3_opaque_errors (e : String) (q id : String) (page : ℤ) :
    fetchRevenue (.error e) = .error "Failed to fetch revenue data." ∧
    fetchLatestInvoices (.error e) =
      .error "Failed to fetch the latest invoices." ∧
    fetchCardData (.error e) = .error "Failed to fetch card data." ∧
    fetchFilteredInvoices (.error e) q page = .error "Failed to fetch invoices." ∧
    fetchInvoicesPages (.error e) q =
      .error "Failed to fetch total number of invoices." ∧
    fetchInvoiceById (.error e) id = .error "Failed to fetch invoice." ∧
    fetchCustomers (.error e) = .error "Failed to fetch all customers." ∧
    fetchFilteredCustomers (.error e) q =
      .error "Failed to fetch customer table." :=
  ⟨rfl, rfl, rfl, rfl, rfl, rfl, rfl, rfl⟩

/-- C4: for every id that matches no invoice row, `fetchInvoiceById(id)`
returns the not-found sentinel (`none`, the model of `undefined`), not an
error. -/
theorem claim4_not_found (db : Db) (id : String)
    (h : ∀ inv ∈ db.invoices, inv.id ≠ id) :
    fetchInvoiceById (.ok db) id = .ok none := by
  have hf : db.invoices.filter (fun i => i.id == id) = [] := by
    rw [List.filter_eq_nil_iff]
    intro i hi
    simpa using h i hi
  simp only [fetchInvoiceById, hf]
  rfl

/-- C4 witness: an id absent from `dbA`. -/
theorem claim4_not_found_witness :
    (∀ inv ∈ dbA.invoices, inv.id ≠ "does-not-exist") ∧
    fetchInvoiceById (.ok dbA) "does-not-exist" = .ok none :=
  ⟨by decide, claim4_not_found dbA "does-not-exist" (by decide)⟩

/-- C7: `fetchCardData()` returns `numberOfInvoices` and `numberOfCustomers`
equal to independent row counts of the two tables, `totalPaidInvoices` equal
to the formatted sum of invoice amounts with status `paid`, and
`totalPendingInvoices` equal to the formatted sum of amounts with status
`pending` (for an empty table the NULL aggregate is normalized to the zero
sum). -/
theorem claim7_card_data (db : Db) :
    fetchCardData (.ok db) = .ok
      { numberOfCustomers := db.customers.length
        numberOfInvoices := db.invoices.length
        totalPaidInvoices := formatCurrency (sumPaid db.invoices)
        totalPendingInvoices := formatCurrency (sumPending db.invoices) } := by
  by_cases h : db.invoices.isEmpty
  · have he : db.invoices = [] := by simpa [List.isEmpty_iff] using h
    simp [fetchCardData, sumAgg, he, sumPaid, sumPending]
  · simp [fetchCardData, sumAgg, h]

/-- C10: when the invoices table is empty, `fetchCardData()` still succeeds,
returning `numberOfInvoices = 0` and both status totals equal to the
formatted zero amount: the NULL aggregates are normalized to zero before
formatting, never propagated as null or an error. -/
theorem claim10_empty_invoices (rv : List Revenue) (cs : List Customer) :
    fetchCardData (.ok { revenue := rv, invoices := [], customers := cs }) =
      .ok { numberOfCustomers := cs.length
            numberOfInvoices := 0
            totalPaidInvoices := formatCurrency 0
            totalPendingInvoices := formatCurrency 0 } := rfl

/-- C5: for an id that matches an invoice row, `fetchInvoiceById(id)` returns
that invoice with its amount equal to the stored minor-unit amount divided by
100, while the other operations return amounts either unchanged
(`fetchFilteredInvoices`) or as `formatCurrency` display strings
(`fetchLatestInvoices`, `fetchCardData`, `fetchFilteredCustomers`). -/
theorem claim5_amount_conventions (db : Db) (id : String) (inv : Invoice)
    (hmem : inv ∈ db.invoices) (hid : inv.id = id)
    (huniq : ∀ i ∈ db.invoices, i.id = id → i = inv) :
    fetchInvoiceById (.ok db) id =
      .ok (some { id := inv.id, customer_id := inv.customer_id,
                  amount := (inv.amount : ℚ) / 100, status := inv.status }) ∧
    (∀ q page rows, fetchFilteredInvoices (.ok db) q page = .ok rows →
      ∀ r ∈ rows, ∃ i ∈ db.invoices, r.id = i.id ∧ r.amount = i.amount) ∧
    (∀ out, fetchLatestInvoices (.ok db) = .ok out →
      ∀ r ∈ out, ∃ i ∈ db.invoices, r.id = i.id ∧
        r.amount = formatCurrency i.amount) ∧
    (∀ card, fetchCardData (.ok db) = .ok card →
      ∃ p₁ p₂ : ℤ, card.totalPaidInvoices = formatCurrency p₁ ∧
        card.totalPendingInvoices = formatCurrency p₂) ∧
    (∀ q out, fetchFilteredCustomers (.ok db) q = .ok out →
      ∀ r ∈ out, ∃ s₁ s₂ : ℤ, r.total_pending = formatCurrency s₁ ∧
        r.total_paid = formatCurrency s₂) := by
  refine ⟨?_, ?_, ?_, ?_, ?_⟩
  · have hne : (db.invoices.filter fun i => i.id == id) ≠ [] :=
      List.ne_nil_of_mem (List.mem_filter.mpr ⟨hmem, by simp [hid]⟩)
    obtain ⟨x, t, hxt⟩ := List.exists_cons_of_ne_nil hne
    have hx_mem : x ∈ db.invoices.filter fun i => i.id == id := by
      rw [hxt]
      exact List.mem_cons_self x t
    have hx : x = inv :=
      huniq x (List.mem_filter.mp hx_mem).1
        (by simpa using (List.mem_filter.mp hx_mem).2)
    subst hx
    simp only [fetchInvoiceById, hxt, List.head?_cons]
  · intro q page rows heq r hr
    simp only [fetchFilteredInvoices] at heq
    split at heq
    · cases heq
    · injection heq with heq'
      subst heq'
      obtain ⟨j, hj, rfl⟩ := List.mem_map.mp hr
      have hjm : j ∈ filteredSorted db q :=
        List.mem_of_mem_drop (List.mem_of_mem_take hj)
      have hjr : j ∈ joinRows db :=
        (List.mem_filter.mp
          ((List.mem_insertionSort _).mp hjm)).1
      exact ⟨j.inv, (mem_joinRows hjr).1, rfl, rfl⟩
  · intro out heq r hr
    simp only [fetchLatestInvoices] at heq
    injection heq with heq'
    subst heq'
    obtain ⟨j, hj, rfl⟩ := List.mem_map.mp hr
    have hjr : j ∈ joinRows db :=
      (List.mem_insertionSort _).mp (List.mem_of_mem_take hj)
    exact ⟨j.inv, (mem_joinRows hjr).1, rfl, rfl⟩
  · intro card heq
    simp only [fetchCardData] at heq
    injection heq with heq'
    subst heq'
    exact ⟨(sumAgg sumPaid db.invoices).getD 0,
      (sumAgg sumPending db.invoices).getD 0, rfl, rfl⟩
  · intro q out heq r hr
    simp only [fetchFilteredCustomers] at heq
    injection heq with heq'
    subst heq'
    obtain ⟨c, hc, rfl⟩ := List.mem_map.mp hr
    exact ⟨sumPending (customerInvoices db c), sumPaid (customerInvoices db c),
      rfl, rfl⟩

/-- C5 witness: invoice `i1` of `dbA` (1500 minor units becomes `15`). -/
theorem claim5_amount_conventions_witness :
    Invoice.mk "i1" "c1" 1500 "2024-01-03" .paid ∈ dbA.invoices ∧
    (Invoice.mk "i1" "c1" 1500 "2024-01-03" .paid).id = "i1" ∧
    (∀ i ∈ dbA.invoices, i.id = "i1" →
      i = Invoice.mk "i1" "c1" 1500 "2024-01-03" .paid) ∧
    fetchInvoiceById (.ok dbA) "i1" =
      .ok (some { id := "i1", customer_id := "c1",
                  amount := ((1500 : Int) : ℚ) / 100, status := .paid }) :=
  ⟨by decide, by decide, by decide,
    (claim5_amount_conventions dbA "i1" ⟨"i1", "c1", 1500, "2024-01-03", .paid⟩
      (by decide) (by decide) (by decide)).1⟩

/-- C6: `fetchLatestInvoices()` returns exactly the 5 most recent invoices
ordered by date descending (a date-descending 5-element selection whose
members dominate every remaining joined row), each joined with the
customer's name, email and image_url, with the amount rendered as a
`formatCurrency` string (see `latestShape`). -/
theorem claim6_latest_five (db : Db) (h5 : 5 ≤ (joinRows db).length) :
    ∃ chosen rest : List JoinedRow,
      (joinRows db).Perm (chosen ++ rest) ∧
      chosen.length = 5 ∧
      List.Pairwise dateDesc chosen ∧
      (∀ a ∈ chosen, ∀ b ∈ rest, b.inv.date ≤ a.inv.date) ∧
      (∀ j ∈ chosen, j.inv ∈ db.invoices ∧ j.cust ∈ db.customers ∧
        j.cust.id = j.inv.customer_id) ∧
      fetchLatestInvoices (.ok db) = .ok (chosen.map latestShape) := by
  have hperm : (joinRows db).Perm (sortByDateDesc (joinRows db)) :=
    (List.perm_insertionSort dateDesc (joinRows db)).symm
  have hsorted : List.Pairwise dateDesc (sortByDateDesc (joinRows db)) :=
    List.sorted_insertionSort dateDesc (joinRows db)
  refine ⟨(sortByDateDesc (joinRows db)).take 5,
    (sortByDateDesc (joinRows db)).drop 5, ?_, ?_, ?_, ?_, ?_, rfl⟩
  · rw [List.take_append_drop]
    exact hperm
  · rw [List.length_take, sortByDateDesc, List.length_insertionSort]
    omega
  · exact hsorted.sublist (List.take_sublist 5 _)
  · intro a ha b hb
    have hsorted' : List.Pairwise dateDesc
        ((sortByDateDesc (joinRows db)).take 5 ++
          (sortByDateDesc (joinRows db)).drop 5) := by
      rw [List.take_append_drop]
      exact hsorted
    exact (List.pairwise_append.mp hsorted').2.2 a ha b hb
  · intro j hj
    exact mem_joinRows
      ((List.mem_insertionSort _).mp (List.mem_of_mem_take hj))

/-- C6 witness: `dbA` has 7 joined rows, so the selection has 5 rows. -/
theorem claim6_latest_five_witness :
    5 ≤ (joinRows dbA).length ∧
    (∃ chosen rest : List JoinedRow,
      (joinRows dbA).Perm (chosen ++ rest) ∧
      chosen.length = 5 ∧
      List.Pairwise dateDesc chosen ∧
      (∀ a ∈ chosen, ∀ b ∈ rest, b.inv.date ≤ a.inv.date) ∧
      (∀ j ∈ chosen, j.inv ∈ dbA.invoices ∧ j.cust ∈ dbA.customers ∧
        j.cust.id = j.inv.customer_id) ∧
      fetchLatestInvoices (.ok dbA) = .ok (chosen.map latestShape)) :=
  ⟨by decide, claim6_latest_five dbA (by decide)⟩

/-- C8 (amended): for every query string free of the SQL `LIKE`
metacharacters `%`, `_` and `\`, a row is included by the shared filter of
`fetchFilteredInvoices` and `fetchInvoicesPages` (`invoiceMatch`) if and only
if at least one of customer name, customer email, invoice amount as text,
invoice date as text, or invoice status contains the query as a
case-insensitive, unanchored substring.  (The unamended claim is false for
queries containing `LIKE` metacharacters, which the code passes through into
the pattern: see the counterexample.) -/
theorem claim8_filter_iff (q : String) (hq : cleanQuery q) (j : JoinedRow) :
    invoiceMatch q j = true ↔
      (ContainsCI q j.cust.name ∨ ContainsCI q j.cust.email ∨
       ContainsCI q (toString j.inv.amount) ∨ ContainsCI q j.inv.date ∨
       ContainsCI q j.inv.status.text) := by
  rw [invoiceMatch]
  simp only [Bool.or_eq_true, ilike_buildLike_iff q hq]
  tauto

/-- C8 counterexample: with query `"_"`, the single joined row of `dbU` is
included by the filter (`fetchInvoicesPages` counts it, giving one page),
yet none of its five field texts contains `"_"` as a substring. -/
theorem claim8_counterexample :
    invoiceMatch "_" ⟨⟨"i1", "c1", 5, "2024-01-05", .paid⟩,
        ⟨"c1", "alice", "alice@example.com", none⟩⟩ = true ∧
    fetchInvoicesPages (.ok dbU) "_" = .ok 1 ∧
    ¬ ContainsCI "_" "alice" ∧ ¬ ContainsCI "_" "alice@example.com" ∧
    ¬ ContainsCI "_" (toString (5 : Int)) ∧ ¬ ContainsCI "_" "2024-01-05" ∧
    ¬ ContainsCI "_" (Status.paid.text) := by decide

/-- C8 witness: a metacharacter-free query on a concrete row. -/
theorem claim8_filter_iff_witness :
    cleanQuery "ali" ∧
    (invoiceMatch "ali" ⟨⟨"i1", "c1", 5, "2024-01-05", .paid⟩,
        ⟨"c1", "Alice", "alice@example.com", none⟩⟩ = true ↔
      (ContainsCI "ali" "Alice" ∨ ContainsCI "ali" "alice@example.com" ∨
       ContainsCI "ali" (toString ((5 : Int))) ∨
       ContainsCI "ali" "2024-01-05" ∨ ContainsCI "ali" (Status.paid.text))) :=
  ⟨by decide, claim8_filter_iff "ali" (by decide)
    ⟨⟨"i1", "c1", 5, "2024-01-05", .paid⟩,
      ⟨"c1", "Alice", "alice@example.com", none⟩⟩⟩

/-- C9: for every customer with zero invoices whose name or email matches the
query, `fetchFilteredCustomers(query)` returns a row for that customer with
`total_invoices = 0` and `total_pending` and `total_paid` equal to the
formatted zero amount, never null (the model's fields are total, so no null
value exists to return). -/
theorem claim9_zero_invoice_customer (db : Db) (q : String) (c : Customer)
    (hc : c ∈ db.customers) (hz : customerInvoices db c = [])
    (hm : customerMatch q c = true) :
    ∃ rows, fetchFilteredCustomers (.ok db) q = .ok rows ∧
      ∃ row ∈ rows, row.id = c.id ∧ row.name = c.name ∧ row.email = c.email ∧
        row.total_invoices = 0 ∧
        row.total_pending = formatCurrency 0 ∧
        row.total_paid = formatCurrency 0 := by
  refine ⟨_, rfl, customerSummaryShape db c, ?_, ?_⟩
  · exact List.mem_map_of_mem _
      ((List.mem_insertionSort _).mpr (List.mem_filter.mpr ⟨hc, hm⟩))
  · simp [customerSummaryShape, hz, sumPending, sumPaid]

/-- C9 witness: customer `Zoe` of `dbA` has no invoices and matches `"zoe"`. -/
theorem claim9_zero_invoice_customer_witness :
    custZ ∈ dbA.customers ∧ customerInvoices dbA custZ = [] ∧
    customerMatch "zoe" custZ = true ∧
    (∃ rows, fetchFilteredCustomers (.ok dbA) "zoe" = .ok rows ∧
      ∃ row ∈ rows, row.id = custZ.id ∧ row.name = custZ.name ∧
        row.email = custZ.email ∧ row.total_invoices = 0 ∧
        row.total_pending = formatCurrency 0 ∧
        row.total_paid = formatCurrency 0) :=
  ⟨by decide, by decide, by decide,
    claim9_zero_invoice_customer dbA "zoe" custZ (by decide) (by decide)
      (by decide)⟩

end InvoiceData
